import Mathlib

/-!
Verification of the IntCode virtual machine of this repository.

The `src/int_code` module contains two generations of the machine:

* `state.rs`, `instructions.rs` and `param_mode.rs` are an older variant:
  a dense `Vec<i64>` memory with bounds-checked access, no relative base,
  no opcode 9, parameter modes Position/Immediate/Illegal, and the error
  variants `NotRunning`, `NoMoreData`, `IllegalAddress`.
  This variant is embedded below in namespace `IntCode`.

* `int_code_computer.rs`, `computer_error.rs` and the day drivers belong to
  the current variant, whose `State` (sparse zero-default memory, relative
  base, opcode 9, a step result that exposes `Waiting`, and the sticky
  `StoppedAfterError` error) is not present in the sources.  That machine is
  modelled from the specification in namespace `SpecVM`, and the facade
  `IntCodeComputer` from `int_code_computer.rs` is embedded on top of it.
-/

/-- The error enumeration.  The first block is `computer_error.rs`; the final
three variants (`NotRunning`, `NoMoreData`, `IllegalAddress`) are the ones the
older `state.rs` additionally references. -/
inductive ComputerError where
  | IllegalOperation (code : Nat)
  | StoppedAfterError
  | NotAnInstruction (v : Int)
  | IllegalParamMode
  | PointerMustNoBeNegative (v : Int)
  | PrematureEndOfOutput
  | WaitingForInput
  | NotAValidChar (v : Int)
  | NotRunning
  | NoMoreData
  | IllegalAddress (addr : Nat)
deriving DecidableEq, Repr

deriving instance DecidableEq for Except

namespace IntCode

/-- Result of a stateful operation of the old machine.  `crash` stands for a
Rust panic (an unguarded `Vec` index out of bounds); `err` is a returned
`Err(ComputerError)`.  On `err` the mutated-state-so-far is dropped, since no
theorem below observes the machine after an error. -/
inductive PResult (α : Type) where
  | crash
  | err (e : ComputerError)
  | ok (a : α)
deriving DecidableEq, Repr

def PResult.bind {α β : Type} : PResult α → (α → PResult β) → PResult β
  | .crash, _ => .crash
  | .err e, _ => .err e
  | .ok a, f => f a

instance : Monad PResult where
  pure := PResult.ok
  bind := PResult.bind

/-- `param_mode.rs`: `enum ParamMode`. -/
inductive ParamMode where
  | Position
  | Immediate
  | Illegal
deriving DecidableEq, Repr

/-- `param_mode.rs`: `impl From<usize> for ParamMode`. -/
def ParamMode.fromNat (value : Nat) : ParamMode :=
  match value with
  | 0 => .Position
  | 1 => .Immediate
  | _ => .Illegal

/-- `param_mode.rs`: `ParamModeDispenser(Cell<usize>)`; the interior
mutability of the `Cell` is rendered by returning the updated dispenser. -/
structure ParamModeDispenser where
  modes : Nat
deriving DecidableEq, Repr

/-- `ParamModeDispenser::next`. -/
def ParamModeDispenser.next (d : ParamModeDispenser) :
    ParamMode × ParamModeDispenser :=
  (ParamMode.fromNat (d.modes % 10), ⟨d.modes / 10⟩)

/-- `state.rs`: `enum InternalStepResult`. -/
inductive InternalStepResult where
  | Continue
  | Output (v : Int)
  | Waiting
  | Halted
deriving DecidableEq, Repr

/-- `state.rs`: `enum ExternalStepResult`. -/
inductive ExternalStepResult where
  | Continue
  | Output (v : Int)
  | Halted
deriving DecidableEq, Repr

/-- `state.rs`: `enum RunningState`. -/
inductive RunningState where
  | Running
  | Waiting
  | Halted
deriving DecidableEq, Repr

/-- `state.rs`: `struct State`.  `Pointer` (a `usize` wrapper) is a `Nat`. -/
structure State where
  memory : List Int
  pointer : Nat
  running : RunningState
  input_buffer : List Int
deriving DecidableEq, Repr

/-- `State::new`. -/
def State.new (memory : List Int) : State :=
  { memory := memory
    pointer := 0
    running := .Running
    input_buffer := [] }

/-- `State::get_next`.  The source checks `pointer <= self.memory.len()` and
then indexes `self.memory[pointer]`; at `pointer = len` the check passes and
the index panics (`crash`). -/
def State.get_next (s : State) : PResult (Int × State) :=
  if s.pointer ≤ s.memory.length then
    match s.memory[s.pointer]? with
    | some v => .ok (v, { s with pointer := s.pointer + 1 })
    | none => .crash
  else
    .err .NoMoreData

/-- `State::get_value_at`: `memory.get(addr).copied().ok_or(IllegalAddress)`
(checked access, no panic possible). -/
def State.get_value_at (s : State) (addr : Nat) : Except ComputerError Int :=
  match s.memory[addr]? with
  | some v => .ok v
  | none => .error (.IllegalAddress addr)

/-- `State::set_value`: refuses `memory.len() <= addr`, otherwise stores. -/
def State.set_value (s : State) (addr : Nat) (value : Int) :
    Except ComputerError State :=
  if s.memory.length ≤ addr then
    .error (.IllegalAddress addr)
  else
    .ok { s with memory := s.memory.set addr value }

/-- `State::get_value`.  The `self.memory[pointer]` index occurs only in the
Position and Immediate arms; the Illegal arm returns before indexing.  The
`try_into()?` of a negative `i64` gives `PointerMustNoBeNegative`. -/
def State.get_value (s : State) (pm : ParamMode) : PResult (Int × State) :=
  if s.pointer ≤ s.memory.length then
    let s' : State := { s with pointer := s.pointer + 1 }
    match pm with
    | .Position =>
      match s.memory[s.pointer]? with
      | none => .crash
      | some v =>
        if v < 0 then .err (.PointerMustNoBeNegative v)
        else
          match s'.get_value_at v.toNat with
          | .ok w => .ok (w, s')
          | .error e => .err e
    | .Immediate =>
      match s.memory[s.pointer]? with
      | none => .crash
      | some v => .ok (v, s')
    | .Illegal => .err .IllegalParamMode
  else
    .err .NoMoreData

/-- `State::get_address`.  Position converts the cell to an address
(negative gives `PointerMustNoBeNegative`); Immediate and Illegal return
`IllegalParamMode` without indexing. -/
def State.get_address (s : State) (pm : ParamMode) : PResult (Nat × State) :=
  if s.pointer ≤ s.memory.length then
    let s' : State := { s with pointer := s.pointer + 1 }
    match pm with
    | .Position =>
      match s.memory[s.pointer]? with
      | none => .crash
      | some v =>
        if v < 0 then .err (.PointerMustNoBeNegative v)
        else .ok (v.toNat, s')
    | .Immediate | .Illegal => .err .IllegalParamMode
  else
    .err .NoMoreData

/-- `State::get_input`: pop the front of the input queue. -/
def State.get_input (s : State) : Option Int × State :=
  match s.input_buffer with
  | [] => (none, s)
  | v :: rest => (some v, { s with input_buffer := rest })

/-- `State::push_input`. -/
def State.push_input (s : State) (value : Int) : State :=
  { s with input_buffer := s.input_buffer ++ [value] }

/-- `State::repeat`: `pointer.dec()`.  It is only called right after the
opcode fetch incremented the pointer, so the `Nat` subtraction is exact. -/
def State.repeat (s : State) : State :=
  { s with pointer := s.pointer - 1 }

/-- `State::set_pointer`. -/
def State.set_pointer (s : State) (target : Nat) : State :=
  { s with pointer := target }

/-- `instructions.rs`: `analyze_instruction`.  `!instruction.is_positive()`
rejects zero as well as negatives. -/
def analyze_instruction (instruction : Int) :
    Except ComputerError (Nat × ParamModeDispenser) :=
  if instruction ≤ 0 then
    .error (.NotAnInstruction instruction)
  else
    .ok (instruction.toNat % 100, ⟨instruction.toNat / 100⟩)

/-- `instructions.rs`: `Add::calc`. -/
def add_calc (s : State) (pd : ParamModeDispenser) :
    PResult (InternalStepResult × State) :=
  let (pm1, pd) := pd.next
  match s.get_value pm1 with
  | .crash => .crash
  | .err e => .err e
  | .ok (op1, s) =>
    let (pm2, pd) := pd.next
    match s.get_value pm2 with
    | .crash => .crash
    | .err e => .err e
    | .ok (op2, s) =>
      let (pm3, _) := pd.next
      match s.get_address pm3 with
      | .crash => .crash
      | .err e => .err e
      | .ok (target, s) =>
        match s.set_value target (op1 + op2) with
        | .error e => .err e
        | .ok s => .ok (.Continue, s)

/-- `instructions.rs`: `Mul::calc`. -/
def mul_calc (s : State) (pd : ParamModeDispenser) :
    PResult (InternalStepResult × State) :=
  let (pm1, pd) := pd.next
  match s.get_value pm1 with
  | .crash => .crash
  | .err e => .err e
  | .ok (op1, s) =>
    let (pm2, pd) := pd.next
    match s.get_value pm2 with
    | .crash => .crash
    | .err e => .err e
    | .ok (op2, s) =>
      let (pm3, _) := pd.next
      match s.get_address pm3 with
      | .crash => .crash
      | .err e => .err e
      | .ok (target, s) =>
        match s.set_value target (op1 * op2) with
        | .error e => .err e
        | .ok s => .ok (.Continue, s)

/-- `instructions.rs`: `Stop::calc`. -/
def stop_calc (s : State) (_pd : ParamModeDispenser) :
    PResult (InternalStepResult × State) :=
  .ok (.Halted, s)

/-- `instructions.rs`: `Input::calc`.  The input is popped before the target
address is decoded; with an empty queue the pointer is rewound (`repeat`) and
the step yields `Waiting`. -/
def input_calc (s : State) (pd : ParamModeDispenser) :
    PResult (InternalStepResult × State) :=
  match s.get_input with
  | (some value, s1) =>
    let (pm1, _) := pd.next
    match s1.get_address pm1 with
    | .crash => .crash
    | .err e => .err e
    | .ok (target, s2) =>
      match s2.set_value target value with
      | .error e => .err e
      | .ok s3 => .ok (.Continue, s3)
  | (none, s1) => .ok (.Waiting, s1.repeat)

/-- `instructions.rs`: `Output::calc`. -/
def output_calc (s : State) (pd : ParamModeDispenser) :
    PResult (InternalStepResult × State) :=
  let (pm1, _) := pd.next
  match s.get_value pm1 with
  | .crash => .crash
  | .err e => .err e
  | .ok (op1, s) => .ok (.Output op1, s)

/-- `instructions.rs`: `JumpIfTrue::calc`. -/
def jump_if_true_calc (s : State) (pd : ParamModeDispenser) :
    PResult (InternalStepResult × State) :=
  let (pm1, pd) := pd.next
  match s.get_value pm1 with
  | .crash => .crash
  | .err e => .err e
  | .ok (test, s) =>
    let (pm2, _) := pd.next
    match s.get_value pm2 with
    | .crash => .crash
    | .err e => .err e
    | .ok (target, s) =>
      if test ≠ 0 then
        if target < 0 then .err (.PointerMustNoBeNegative target)
        else .ok (.Continue, s.set_pointer target.toNat)
      else .ok (.Continue, s)

/-- `instructions.rs`: `JumpIfFalse::calc`. -/
def jump_if_false_calc (s : State) (pd : ParamModeDispenser) :
    PResult (InternalStepResult × State) :=
  let (pm1, pd) := pd.next
  match s.get_value pm1 with
  | .crash => .crash
  | .err e => .err e
  | .ok (test, s) =>
    let (pm2, _) := pd.next
    match s.get_value pm2 with
    | .crash => .crash
    | .err e => .err e
    | .ok (target, s) =>
      if test = 0 then
        if target < 0 then .err (.PointerMustNoBeNegative target)
        else .ok (.Continue, s.set_pointer target.toNat)
      else .ok (.Continue, s)

/-- `instructions.rs`: `LessThan::calc`. -/
def less_than_calc (s : State) (pd : ParamModeDispenser) :
    PResult (InternalStepResult × State) :=
  let (pm1, pd) := pd.next
  match s.get_value pm1 with
  | .crash => .crash
  | .err e => .err e
  | .ok (op1, s) =>
    let (pm2, pd) := pd.next
    match s.get_value pm2 with
    | .crash => .crash
    | .err e => .err e
    | .ok (op2, s) =>
      let (pm3, _) := pd.next
      match s.get_address pm3 with
      | .crash => .crash
      | .err e => .err e
      | .ok (target, s) =>
        match s.set_value target (if op1 < op2 then 1 else 0) with
        | .error e => .err e
        | .ok s => .ok (.Continue, s)

/-- `instructions.rs`: `Equals::calc`. -/
def equals_calc (s : State) (pd : ParamModeDispenser) :
    PResult (InternalStepResult × State) :=
  let (pm1, pd) := pd.next
  match s.get_value pm1 with
  | .crash => .crash
  | .err e => .err e
  | .ok (op1, s) =>
    let (pm2, pd) := pd.next
    match s.get_value pm2 with
    | .crash => .crash
    | .err e => .err e
    | .ok (op2, s) =>
      let (pm3, _) := pd.next
      match s.get_address pm3 with
      | .crash => .crash
      | .err e => .err e
      | .ok (target, s) =>
        match s.set_value target (if op1 = op2 then 1 else 0) with
        | .error e => .err e
        | .ok s => .ok (.Continue, s)

/-- `instructions.rs`: `run_instruction`: fetch, decode, dispatch.
The dispatch has arms 1-8 and 99 only; anything else is `IllegalOperation`. -/
def run_instruction (s : State) : PResult (InternalStepResult × State) :=
  match s.get_next with
  | .crash => .crash
  | .err e => .err e
  | .ok (raw, s) =>
    match analyze_instruction raw with
    | .error e => .err e
    | .ok (code, pd) =>
      match code with
      | 1 => add_calc s pd
      | 2 => mul_calc s pd
      | 3 => input_calc s pd
      | 4 => output_calc s pd
      | 5 => jump_if_true_calc s pd
      | 6 => jump_if_false_calc s pd
      | 7 => less_than_calc s pd
      | 8 => equals_calc s pd
      | 99 => stop_calc s pd
      | c => .err (.IllegalOperation c)

/-- Inner part of `State::next_instruction`: run one instruction and fold the
internal result into the external one (the source also sets
`running = Halted` before returning an `Err`; that post-error state is not
observed by any theorem below). -/
def next_instruction_run (s : State) : PResult (ExternalStepResult × State) :=
  match run_instruction s with
  | .crash => .crash
  | .err e => .err e
  | .ok (.Continue, s1) => .ok (.Continue, s1)
  | .ok (.Waiting, s1) => .ok (.Continue, { s1 with running := .Waiting })
  | .ok (.Output v, s1) => .ok (.Output v, s1)
  | .ok (.Halted, s1) => .ok (.Halted, { s1 with running := .Halted })

/-- `State::next_instruction`: the running-state dispatch of the old
machine. -/
def next_instruction (s : State) : PResult (ExternalStepResult × State) :=
  match s.running with
  | .Halted => .err .NotRunning
  | .Waiting =>
    if s.input_buffer.isEmpty then .ok (.Continue, s)
    else next_instruction_run { s with running := .Running }
  | .Running => next_instruction_run s

end IntCode

/-- The sixteen-number quine program of spec §8 and the day09 `copy` test. -/
def quineProg : List Int :=
  [109, 1, 204, -1, 1001, 100, 1, 100, 1008, 100, 16, 101, 1006, 101, 0, 99]

namespace SpecVM

/-- Modelled from the spec: the sparse memory of the current `State`
(absent from src); spec §3 "Memory" and §4.1: a mapping from non-negative
address to signed integer, default zero, initialised from the program image,
unbounded above.  Represented as an association list where the most recent
write shadows older entries. -/
structure Memory where
  cells : List (Nat × Int)
deriving DecidableEq, Repr

/-- Modelled from the spec: memory read, default zero on miss (§4.1). -/
def Memory.read (m : Memory) (a : Nat) : Int :=
  (m.cells.lookup a).getD 0

/-- Modelled from the spec: memory write, legal at any non-negative address
(§4.1). -/
def Memory.write (m : Memory) (a : Nat) (v : Int) : Memory :=
  ⟨(a, v) :: m.cells⟩

/-- Modelled from the spec: copy-from-image, cells `0..N-1` (§3). -/
def Memory.ofImage (img : List Int) : Memory :=
  ⟨(List.range img.length).zip img⟩

/-- Modelled from the spec: the running state of the current `State`
(§3, §4.4), absent from src. -/
inductive RunningState where
  | Running
  | Waiting
  | Halted
  | Errored
deriving DecidableEq, Repr

/-- Modelled from the spec: the step result the current `State` exposes
(§4.4); the facade in `int_code_computer.rs` matches on exactly the variants
`Continue`, `Output`, `Halted` and `Waiting` (spec's `Suspended`). -/
inductive StepResult where
  | Continue
  | Output (v : Int)
  | Waiting
  | Halted
deriving DecidableEq, Repr

/-- Modelled from the spec: the current machine state (absent from src):
sparse memory, instruction pointer, relative base, running state, input
queue (§3). -/
structure Machine where
  memory : Memory
  ip : Nat
  rb : Int
  running : RunningState
  inputs : List Int
deriving DecidableEq, Repr

/-- Modelled from the spec: a fresh machine from a program image (§3). -/
def Machine.new (img : List Int) : Machine :=
  { memory := Memory.ofImage img
    ip := 0
    rb := 0
    running := .Running
    inputs := [] }

/-- Modelled from the spec: `Machine::push_input`, enqueue at the back
(§3 "Input queue"). -/
def Machine.push_input (m : Machine) (v : Int) : Machine :=
  { m with inputs := m.inputs ++ [v] }

/-- Modelled from the spec: value-operand resolution (§4.3):
Position reads `memory[operand]`, Immediate is the operand itself, Relative
reads `memory[RB+operand]`; a negative resolved address is an error, a mode
digit outside 0-2 is `IllegalParamMode`. -/
def readParam (m : Machine) (mode : Nat) (operand : Int) :
    Except ComputerError Int :=
  match mode with
  | 0 =>
    if operand < 0 then .error (.PointerMustNoBeNegative operand)
    else .ok (m.memory.read operand.toNat)
  | 1 => .ok operand
  | 2 =>
    let a := m.rb + operand
    if a < 0 then .error (.PointerMustNoBeNegative a)
    else .ok (m.memory.read a.toNat)
  | _ => .error .IllegalParamMode

/-- Modelled from the spec: write-operand resolution (§4.3): Position is the
operand itself, Relative is `RB+operand`, Immediate is an error. -/
def writeTarget (m : Machine) (mode : Nat) (operand : Int) :
    Except ComputerError Nat :=
  match mode with
  | 0 =>
    if operand < 0 then .error (.PointerMustNoBeNegative operand)
    else .ok operand.toNat
  | 2 =>
    let a := m.rb + operand
    if a < 0 then .error (.PointerMustNoBeNegative a)
    else .ok a.toNat
  | _ => .error .IllegalParamMode

/-- Modelled from the spec: decode and execute the instruction under the
instruction pointer (§4.2 decoder, §4.3 opcode table).  A negative raw
instruction is `NotAnInstruction`; opcode is the raw value modulo 100 and
mode digits are taken least-significant first.  On opcode 3 with an empty
queue the instruction pointer is left at the opcode and the step yields
`Waiting` (the spec's suspension rule). -/
def Machine.exec (m : Machine) : Except ComputerError (StepResult × Machine) :=
  let raw := m.memory.read m.ip
  if raw < 0 then .error (.NotAnInstruction raw)
  else
    let code := raw.toNat % 100
    let modes := raw.toNat / 100
    let o1 := m.memory.read (m.ip + 1)
    let o2 := m.memory.read (m.ip + 2)
    let o3 := m.memory.read (m.ip + 3)
    let md1 := modes % 10
    let md2 := modes / 10 % 10
    let md3 := modes / 100 % 10
    match code with
    | 1 => do
      let v1 ← readParam m md1 o1
      let v2 ← readParam m md2 o2
      let t ← writeTarget m md3 o3
      .ok (.Continue,
        { m with memory := m.memory.write t (v1 + v2), ip := m.ip + 4 })
    | 2 => do
      let v1 ← readParam m md1 o1
      let v2 ← readParam m md2 o2
      let t ← writeTarget m md3 o3
      .ok (.Continue,
        { m with memory := m.memory.write t (v1 * v2), ip := m.ip + 4 })
    | 3 =>
      match m.inputs with
      | [] => .ok (.Waiting, m)
      | v :: rest => do
        let t ← writeTarget m md1 o1
        .ok (.Continue,
          { m with memory := m.memory.write t v, ip := m.ip + 2,
                   inputs := rest })
    | 4 => do
      let v1 ← readParam m md1 o1
      .ok (.Output v1, { m with ip := m.ip + 2 })
    | 5 => do
      let v1 ← readParam m md1 o1
      let v2 ← readParam m md2 o2
      if v1 ≠ 0 then
        if v2 < 0 then .error (.PointerMustNoBeNegative v2)
        else .ok (.Continue, { m with ip := v2.toNat })
      else .ok (.Continue, { m with ip := m.ip + 3 })
    | 6 => do
      let v1 ← readParam m md1 o1
      let v2 ← readParam m md2 o2
      if v1 = 0 then
        if v2 < 0 then .error (.PointerMustNoBeNegative v2)
        else .ok (.Continue, { m with ip := v2.toNat })
      else .ok (.Continue, { m with ip := m.ip + 3 })
    | 7 => do
      let v1 ← readParam m md1 o1
      let v2 ← readParam m md2 o2
      let t ← writeTarget m md3 o3
      .ok (.Continue,
        { m with memory := m.memory.write t (if v1 < v2 then 1 else 0),
                 ip := m.ip + 4 })
    | 8 => do
      let v1 ← readParam m md1 o1
      let v2 ← readParam m md2 o2
      let t ← writeTarget m md3 o3
      .ok (.Continue,
        { m with memory := m.memory.write t (if v1 = v2 then 1 else 0),
                 ip := m.ip + 4 })
    | 9 => do
      let v1 ← readParam m md1 o1
      .ok (.Continue, { m with rb := m.rb + v1, ip := m.ip + 2 })
    | 99 => .ok (.Halted, m)
    | c => .error (.IllegalOperation c)

/-- Modelled from the spec: record the transition of §4.4 after executing one
instruction: `Waiting` enters the Waiting state, `Halted` the Halted state,
an error makes the machine `Errored`. -/
def Machine.dispatch (m : Machine) :
    Except ComputerError StepResult × Machine :=
  match m.exec with
  | .error e => (.error e, { m with running := .Errored })
  | .ok (.Waiting, m') => (.ok .Waiting, { m' with running := .Waiting })
  | .ok (.Halted, m') => (.ok .Halted, { m' with running := .Halted })
  | .ok (r, m') => (.ok r, m')

/-- Modelled from the spec: the current `State::next_instruction` (§4.4):
from Halted every step yields `Halted` (end-of-stream); from Errored every
step returns `StoppedAfterError`; from Waiting with an empty queue the step
returns `Waiting` (spec's `Suspended`) without advancing; otherwise one
instruction is executed. -/
def Machine.next_instruction (m : Machine) :
    Except ComputerError StepResult × Machine :=
  match m.running with
  | .Halted => (.ok .Halted, m)
  | .Errored => (.error .StoppedAfterError, m)
  | .Waiting =>
    if m.inputs.isEmpty then (.ok .Waiting, m)
    else Machine.dispatch { m with running := .Running }
  | .Running => Machine.dispatch m

end SpecVM

/-- `int_code_computer.rs`: `struct IntCodeComputer`, on top of the modelled
current machine.  `peeked` is the peek stash (a `VecDeque`, front at the list
head). -/
structure IntCodeComputer where
  init_memory : List Int
  state : SpecVM.Machine
  peeked : List Int
deriving DecidableEq, Repr

/-- `IntCodeComputer::new`. -/
def IntCodeComputer.new (memory : List Int) : IntCodeComputer :=
  { init_memory := memory
    state := SpecVM.Machine.new memory
    peeked := [] }

/-- `int_code_computer.rs`: `struct ComputerFactory`. -/
structure ComputerFactory where
  data : List Int
deriving DecidableEq, Repr

/-- `ComputerFactory::build`. -/
def ComputerFactory.build (f : ComputerFactory) : IntCodeComputer :=
  IntCodeComputer.new f.data

/-- `IntCodeComputer::reset`. -/
def IntCodeComputer.reset (c : IntCodeComputer) : IntCodeComputer :=
  { c with state := SpecVM.Machine.new c.init_memory, peeked := [] }

/-- `IntCodeComputer::push_peeked`: `peeked.push_back(value)`. -/
def IntCodeComputer.push_peeked (c : IntCodeComputer) (value : Int) :
    IntCodeComputer :=
  { c with peeked := c.peeked ++ [value] }

/-- `IntCodeComputer::run`: loop stepping the machine until the next
`Output` (`some v`), `Halted` (`none`), or an error; `Waiting` is turned
into the `WaitingForInput` error (the non-blocking form).  The source loop
has no bound, so a fuel argument is added; `none` means the fuel ran out
before the loop returned. -/
def IntCodeComputer.run :
    Nat → IntCodeComputer →
    Option (Except ComputerError (Option Int) × IntCodeComputer)
  | 0, _ => none
  | fuel + 1, c =>
    match c.state.next_instruction with
    | (.ok .Continue, m) => IntCodeComputer.run fuel { c with state := m }
    | (.ok (.Output v), m) => some (.ok (some v), { c with state := m })
    | (.ok .Halted, m) => some (.ok none, { c with state := m })
    | (.ok .Waiting, m) =>
      some (.error .WaitingForInput, { c with state := m })
    | (.error e, m) => some (.error e, { c with state := m })

/-- `IntCodeComputer::receive_next`: pop the peek stash first, otherwise run
the machine to its next output. -/
def IntCodeComputer.receive_next (fuel : Nat) (c : IntCodeComputer) :
    Option (Except ComputerError (Option Int) × IntCodeComputer) :=
  match c.peeked with
  | v :: rest => some (.ok (some v), { c with peeked := rest })
  | [] => c.run fuel

/-- `IntCodeComputer::as_iter().take(n).try_collect()`: pull up to `n`
values; the stream ends early at `Halted` (`ok` with a short list) and an
error aborts the collection. -/
def IntCodeComputer.take_n :
    Nat → Nat → IntCodeComputer →
    Option (Except ComputerError (List Int) × IntCodeComputer)
  | _, 0, c => some (.ok [], c)
  | 0, _ + 1, _ => none
  | fuel + 1, n + 1, c =>
    match c.receive_next (fuel + 1) with
    | none => none
    | some (.error e, c1) => some (.error e, c1)
    | some (.ok none, c1) => some (.ok [], c1)
    | some (.ok (some v), c1) =>
      match IntCodeComputer.take_n fuel n c1 with
      | none => none
      | some (.error e, c2) => some (.error e, c2)
      | some (.ok vs, c2) => some (.ok (v :: vs), c2)

/-- `IntCodeComputer::maybe_take_exactly`: collect `take(n)` and return
`none` when fewer than `n` values arrived before the stream ended. -/
def IntCodeComputer.maybe_take_exactly (fuel n : Nat) (c : IntCodeComputer) :
    Option (Except ComputerError (Option (List Int)) × IntCodeComputer) :=
  match c.take_n fuel n with
  | none => none
  | some (.error e, c1) => some (.error e, c1)
  | some (.ok vs, c1) =>
    some (.ok (if vs.length = n then some vs else none), c1)

/-- Rust `value as u32`: two's-complement truncation of the `i64` to its low
32 bits. -/
def truncU32 (v : Int) : Nat :=
  (v % (4294967296 : Int)).toNat

/-- `char::from_u32(c as u32)` followed by `is_ascii()`: the truncated value
is a valid scalar and at most 127 (every value at most 127 is a valid
scalar, so the two tests collapse into one bound). -/
def isAsciiVal (v : Int) : Bool :=
  truncU32 v ≤ 127

/-- The loop of `IntCodeComputer::maybe_string`: pull values, stop at the
exact value 10, accumulate values whose `u32` truncation is an ASCII
character, push back a non-character seen before any accumulation, error on
a non-character after accumulation began, and end the line when the stream
halts.  `acc` carries the accumulated characters in order, `got` is the
source's `got_string_data` flag. -/
def IntCodeComputer.maybe_string_go :
    Nat → IntCodeComputer → List Char → Bool →
    Option (Except ComputerError (Option (List Char)) × IntCodeComputer)
  | 0, _, _, _ => none
  | fuel + 1, c, acc, got =>
    match c.receive_next (fuel + 1) with
    | none => none
    | some (.error e, c1) => some (.error e, c1)
    | some (.ok none, c1) =>
      some (.ok (if got then some acc else none), c1)
    | some (.ok (some v), c1) =>
      if v = 10 then some (.ok (some acc), c1)
      else if isAsciiVal v then
        IntCodeComputer.maybe_string_go fuel c1
          (acc ++ [Char.ofNat (truncU32 v)]) true
      else if got then some (.error (.NotAValidChar v), c1)
      else some (.ok none, c1.push_peeked v)

/-- `IntCodeComputer::maybe_string`. -/
def IntCodeComputer.maybe_string (fuel : Nat) (c : IntCodeComputer) :
    Option (Except ComputerError (Option (List Char)) × IntCodeComputer) :=
  IntCodeComputer.maybe_string_go fuel c [] false

/-- C1: the sixteen-number quine must output itself and halt, exercising
opcode 9 and Relative mode.  The executor in src (`run_instruction`)
dispatches no opcode 9 and `ParamMode` has no Relative, so the very first
instruction 109 already fails with `IllegalOperation 9` — contradicting the
repository's own day09 `copy` test.  On the machine modelled from the spec
the quine does produce exactly its own sixteen numbers and then halts
(seventeen pulls return the sixteen values and end-of-stream). -/
theorem c1_quine_code_bug :
    IntCode.run_instruction (IntCode.State.new quineProg) =
      .err (.IllegalOperation 9)
    ∧ ((ComputerFactory.build ⟨quineProg⟩).take_n 500 17).map Prod.fst =
      some (.ok quineProg) := by decide

/-- C2: the claim says memory reads never fail and writes past the image
succeed.  The `State` in src refuses both: `get_value_at` returns
`IllegalAddress` for any address at or past the end of the image and
`set_value` refuses to extend memory — contradicting spec invariant I1 and
the sparse memory the day09 test depends on.  The memory modelled from the
spec reads unwritten cells as zero and accepts writes at any address. -/
theorem c2_memory_code_bug :
    (IntCode.State.new quineProg).get_value_at 16 =
      .error (.IllegalAddress 16)
    ∧ (IntCode.State.new quineProg).get_value_at 100 =
      .error (.IllegalAddress 100)
    ∧ (IntCode.State.new quineProg).set_value 100 5 =
      .error (.IllegalAddress 100)
    ∧ (SpecVM.Memory.ofImage quineProg).read 100 = 0
    ∧ ((SpecVM.Memory.ofImage quineProg).write 100 5).read 100 = 5 := by
  decide

lemma IntCode.get_next_noMoreData_iff (s : IntCode.State) :
    s.get_next = .err .NoMoreData ↔ s.memory.length < s.pointer := by
  by_cases hle : s.pointer ≤ s.memory.length
  · cases hg : s.memory[s.pointer]? <;>
      simp [IntCode.State.get_next, hle, hg]
  · simp [IntCode.State.get_next, hle]; omega

lemma IntCode.get_value_noMoreData_iff (s : IntCode.State)
    (pm : IntCode.ParamMode) :
    s.get_value pm = .err .NoMoreData ↔ s.memory.length < s.pointer := by
  by_cases hle : s.pointer ≤ s.memory.length
  · have hfalse : ¬ s.memory.length < s.pointer := by omega
    simp only [hfalse, iff_false]
    cases pm with
    | Position =>
      cases hg : s.memory[s.pointer]? with
      | none => simp [IntCode.State.get_value, hle, hg]
      | some v =>
        simp only [IntCode.State.get_value, if_pos hle, hg]
        split
        · simp
        · simp only [IntCode.State.get_value_at]
          cases hg2 : s.memory[v.toNat]? <;> simp [hg2]
    | Immediate =>
      cases hg : s.memory[s.pointer]? <;>
        simp [IntCode.State.get_value, hle, hg]
    | Illegal => simp [IntCode.State.get_value, hle]
  · cases pm <;> simp [IntCode.State.get_value, hle] <;> omega

lemma IntCode.get_address_noMoreData_iff (s : IntCode.State)
    (pm : IntCode.ParamMode) :
    s.get_address pm = .err .NoMoreData ↔ s.memory.length < s.pointer := by
  by_cases hle : s.pointer ≤ s.memory.length
  · have hfalse : ¬ s.memory.length < s.pointer := by omega
    simp only [hfalse, iff_false]
    cases pm with
    | Position =>
      cases hg : s.memory[s.pointer]? with
      | none => simp [IntCode.State.get_address, hle, hg]
      | some v =>
        simp only [IntCode.State.get_address, if_pos hle, hg]
        split <;> simp
    | Immediate => simp [IntCode.State.get_address, hle]
    | Illegal => simp [IntCode.State.get_address, hle]
  · cases pm <;> simp [IntCode.State.get_address, hle] <;> omega

/-- C9: at `pointer = memory.len()` the bound check `pointer <= len` of
`get_next`, `get_value` and `get_address` passes and the `self.memory[pointer]`
vector index is out of bounds (`crash`, a Rust panic, not a guarded error);
the `NoMoreData` error arises exactly when the pointer strictly exceeds the
memory length. -/
theorem c9_pointer_bound_off_by_one (s s' : IntCode.State)
    (h : s.pointer = s.memory.length) :
    s.pointer ≤ s.memory.length
    ∧ s.memory[s.pointer]? = none
    ∧ s.get_next = .crash
    ∧ s.get_value .Position = .crash
    ∧ s.get_value .Immediate = .crash
    ∧ s.get_address .Position = .crash
    ∧ (s'.get_next = .err .NoMoreData ↔ s'.memory.length < s'.pointer)
    ∧ (∀ pm, s'.get_value pm = .err .NoMoreData ↔
        s'.memory.length < s'.pointer)
    ∧ (∀ pm, s'.get_address pm = .err .NoMoreData ↔
        s'.memory.length < s'.pointer) := by
  have hle : s.pointer ≤ s.memory.length := le_of_eq h
  have hnone : s.memory[s.pointer]? = none := by
    apply List.getElem?_eq_none; omega
  refine ⟨hle, hnone, ?_, ?_, ?_, ?_,
    IntCode.get_next_noMoreData_iff s',
    fun pm => IntCode.get_value_noMoreData_iff s' pm,
    fun pm => IntCode.get_address_noMoreData_iff s' pm⟩
  · simp [IntCode.State.get_next, hle, hnone]
  · simp [IntCode.State.get_value, hle, hnone]
  · simp [IntCode.State.get_value, hle, hnone]
  · simp [IntCode.State.get_address, hle, hnone]

/-- C9 witness: the fresh empty-memory state has `pointer = len = 0`; its
`get_next` is the out-of-bounds panic. -/
theorem c9_witness :
    (IntCode.State.new []).get_next = .crash :=
  (c9_pointer_bound_off_by_one (IntCode.State.new []) (IntCode.State.new [])
    (by decide)).2.2.1

/-- C5 counterexample: the raw instruction 0 is non-negative yet decodes to
the `NotAnInstruction` error rather than opcode 0, and the mode digit 2 is
`Illegal` rather than Relative — executing instruction 203 (opcode 3 with
mode digit 2) with an input queued fails with `IllegalParamMode` instead of
resolving the operand relative to a relative base. -/
theorem c5_cex :
    IntCode.analyze_instruction 0 = .error (.NotAnInstruction 0)
    ∧ IntCode.ParamMode.fromNat 2 = .Illegal
    ∧ IntCode.run_instruction
        { IntCode.State.new [203, 0, 99] with input_buffer := [7] } =
      .err .IllegalParamMode := by decide

/-- C5 amended: for every positive raw instruction the decoder yields
opcode = raw mod 100 and the mode digits, least-significant first, of the
higher decimal digits (an absent digit is Position; 0 is Position, 1 is
Immediate); every mode digit of 2 or more (2 included) is the Illegal mode,
which surfaces as the `IllegalParamMode` error when that parameter is
consumed; every raw instruction that is negative or zero yields the
`NotAnInstruction` error. -/
theorem c5_decoder (raw : Int) (d mo : Nat) (s : IntCode.State)
    (hle : s.pointer ≤ s.memory.length) :
    (0 < raw →
      IntCode.analyze_instruction raw =
        .ok (raw.toNat % 100, ⟨raw.toNat / 100⟩))
    ∧ (raw ≤ 0 →
      IntCode.analyze_instruction raw = .error (.NotAnInstruction raw))
    ∧ IntCode.ParamMode.fromNat 0 = .Position
    ∧ IntCode.ParamMode.fromNat 1 = .Immediate
    ∧ (2 ≤ d → IntCode.ParamMode.fromNat d = .Illegal)
    ∧ IntCode.ParamModeDispenser.next ⟨mo⟩ =
        (IntCode.ParamMode.fromNat (mo % 10), ⟨mo / 10⟩)
    ∧ s.get_value .Illegal = .err .IllegalParamMode
    ∧ s.get_address .Illegal = .err .IllegalParamMode := by
  refine ⟨?_, ?_, rfl, rfl, ?_, rfl, ?_, ?_⟩
  · intro hpos
    have hnp : ¬ raw ≤ 0 := by omega
    simp [IntCode.analyze_instruction, hnp]
  · intro hneg
    simp [IntCode.analyze_instruction, hneg]
  · intro hd
    match d, hd with
    | n + 2, _ => rfl
  · simp [IntCode.State.get_value, hle]
  · simp [IntCode.State.get_address, hle]

/-- C5 witness: the decoder facts at raw instruction 103, mode digit 2,
dispenser 12 and the fresh empty state. -/
theorem c5_witness :
    IntCode.analyze_instruction 103 = .ok (3, ⟨1⟩) :=
  ((c5_decoder 103 2 12 (IntCode.State.new []) (by decide)).1 (by decide)).trans
    (by decide)

/-- C8 counterexample: on a VM whose peek stash already holds the value 10,
`unpull(99)` followed by `pull()` returns 10, not 99 — the stash is a FIFO
queue and `unpull` appends at its back. -/
theorem c8_cex :
    ((({ IntCodeComputer.new [99] with
          peeked := [10] }).push_peeked 99).receive_next 1).map Prod.fst =
      some (.ok (some 10))
    ∧ (10 : Int) ≠ 99 := by decide

/-- C8 amended: on a VM whose peek stash is empty, `unpull(v)` followed by
`pull()` returns v and leaves the VM exactly as it was (machine memory,
instruction pointer and running state untouched), so every subsequent pull
equals what the VM would have produced without the pair; in general the
stash is drained front-first (FIFO) strictly before any fresh execution
output, `unpull` appending at the back. -/
theorem c8_unpull_pull (c : IntCodeComputer) (v x : Int) (xs : List Int)
    (fuel : Nat) :
    (c.peeked = [] →
      (c.push_peeked v).receive_next (fuel + 1) = some (.ok (some v), c))
    ∧ (c.peeked = x :: xs →
      c.receive_next (fuel + 1) = some (.ok (some x), { c with peeked := xs }))
    := by
  constructor
  · intro hp
    cases c
    simp_all [IntCodeComputer.push_peeked, IntCodeComputer.receive_next]
  · intro hp
    simp [IntCodeComputer.receive_next, hp]

/-- C8 witness: on the fresh VM (empty stash) unpulling 7 and pulling
returns 7 with the VM unchanged. -/
theorem c8_witness :
    ((IntCodeComputer.new [99]).push_peeked 7).receive_next 1 =
      some (.ok (some 7), IntCodeComputer.new [99]) :=
  (c8_unpull_pull (IntCodeComputer.new [99]) 7 0 [] 0).1 (by decide)

/-- C3: executing opcode 99 puts the machine in the Halted state changing
nothing else; from Halted every further step yields end-of-stream (the
facade's pull returns `ok none`) with the machine unchanged, and from
Errored every further step (and hence every further pull) returns the
`StoppedAfterError` error with the machine unchanged — so both outcomes are
sticky. -/
theorem c3_halt_error_sticky (m : SpecVM.Machine) (c : IntCodeComputer)
    (fuel : Nat) :
    (m.running = .Running → m.memory.read m.ip = 99 →
      m.next_instruction = (.ok .Halted, { m with running := .Halted }))
    ∧ (m.running = .Halted → m.next_instruction = (.ok .Halted, m))
    ∧ (m.running = .Errored →
      m.next_instruction = (.error .StoppedAfterError, m))
    ∧ (c.peeked = [] → c.state.running = .Halted →
      c.receive_next (fuel + 1) = some (.ok none, c))
    ∧ (c.peeked = [] → c.state.running = .Errored →
      c.receive_next (fuel + 1) =
        some (.error .StoppedAfterError, c)) := by
  refine ⟨?_, ?_, ?_, ?_, ?_⟩
  · intro hrun hread
    simp [SpecVM.Machine.next_instruction, hrun, SpecVM.Machine.dispatch,
      SpecVM.Machine.exec, hread]
  · intro hh
    simp [SpecVM.Machine.next_instruction, hh]
  · intro he
    simp [SpecVM.Machine.next_instruction, he]
  · intro hp hh
    have hni : c.state.next_instruction = (.ok .Halted, c.state) := by
      simp [SpecVM.Machine.next_instruction, hh]
    simp [IntCodeComputer.receive_next, hp, IntCodeComputer.run, hni]
    rw [← hp]
  · intro hp he
    have hni : c.state.next_instruction =
        (.error .StoppedAfterError, c.state) := by
      simp [SpecVM.Machine.next_instruction, he]
    simp [IntCodeComputer.receive_next, hp, IntCodeComputer.run, hni]
    rw [← hp]

/-- C3 witness: the one-instruction program `[99]` halts in one step, and a
halted and an errored machine are sticky on the fresh `[99]` computer. -/
theorem c3_witness :
    (SpecVM.Machine.new [99]).next_instruction =
      (.ok .Halted, { SpecVM.Machine.new [99] with running := .Halted }) :=
  (c3_halt_error_sticky (SpecVM.Machine.new [99]) (IntCodeComputer.new [99])
    0).1 (by decide) (by decide)

/-- C7: a step taken while the machine is Waiting with the input queue still
empty returns the Waiting (spec: Suspended) result without advancing the
machine; a suspended machine makes the non-blocking pull return the
`WaitingForInput` error rather than a value or end-of-stream, and a Running
machine at an INPUT opcode with an empty queue suspends and produces the
same error, the machine left Waiting at the INPUT opcode. -/
theorem c7_waiting_for_input (m : SpecVM.Machine) (c : IntCodeComputer)
    (fuel : Nat) :
    (m.running = .Waiting → m.inputs = [] →
      m.next_instruction = (.ok .Waiting, m))
    ∧ (c.peeked = [] → c.state.running = .Waiting → c.state.inputs = [] →
      c.receive_next (fuel + 1) = some (.error .WaitingForInput, c))
    ∧ (c.peeked = [] → c.state.running = .Running →
      c.state.memory.read c.state.ip = 3 → c.state.inputs = [] →
      c.receive_next (fuel + 1) =
        some (.error .WaitingForInput,
          { c with state := { c.state with running := .Waiting } })) := by
  refine ⟨?_, ?_, ?_⟩
  · intro hw hi
    simp [SpecVM.Machine.next_instruction, hw, hi]
  · intro hp hw hi
    have hni : c.state.next_instruction = (.ok .Waiting, c.state) := by
      simp [SpecVM.Machine.next_instruction, hw, hi]
    simp [IntCodeComputer.receive_next, hp, IntCodeComputer.run, hni]
    rw [← hp]
  · intro hp hr hread hi
    have hni : c.state.next_instruction =
        (.ok .Waiting, { c.state with running := .Waiting }) := by
      simp [SpecVM.Machine.next_instruction, hr, SpecVM.Machine.dispatch,
        SpecVM.Machine.exec, hread, hi]
    simp [IntCodeComputer.receive_next, hp, IntCodeComputer.run, hni]

/-- C4: one step at an INPUT opcode with an empty input queue leaves the
instruction pointer at the opcode itself (the fetch's increment is undone by
`repeat`), the memory untouched and the machine Waiting, so re-entry decodes
the same INPUT instruction; stepping again once a value has been queued
consumes that value, writes it to the position-mode resolved address, and
advances the pointer past the two-cell instruction. -/
theorem c4_input_suspension (s : IntCode.State) (raw t v : Int)
    (hrun : s.running = .Running)
    (hlt : s.pointer < s.memory.length)
    (hraw : s.memory[s.pointer]? = some raw)
    (hpos : 0 < raw) (hcode : raw.toNat % 100 = 3) :
    (s.input_buffer = [] →
      IntCode.next_instruction s =
        .ok (.Continue, { s with running := .Waiting }))
    ∧ (raw.toNat / 100 % 10 = 0 →
      s.pointer + 1 < s.memory.length →
      s.memory[s.pointer + 1]? = some t →
      0 ≤ t → t.toNat < s.memory.length →
      IntCode.next_instruction
          { s with running := .Waiting, input_buffer := [v] } =
        .ok (.Continue,
          { s with memory := s.memory.set t.toNat v,
                   pointer := s.pointer + 2,
                   running := .Running,
                   input_buffer := [] })) := by
  have hle : s.pointer ≤ s.memory.length := hlt.le
  have hnn : ¬ raw ≤ 0 := by omega
  constructor
  · intro hemp
    simp [IntCode.next_instruction, hrun, IntCode.next_instruction_run,
      IntCode.run_instruction, IntCode.State.get_next, hle, hraw,
      IntCode.analyze_instruction, hnn, hcode, IntCode.input_calc,
      IntCode.State.get_input, hemp, IntCode.State.repeat]
  · intro hmode hlt2 ht htnn htlt
    have hle2 : s.pointer + 1 ≤ s.memory.length := hlt2.le
    have htneg : ¬ t < 0 := by omega
    have htlen : ¬ s.memory.length ≤ t.toNat := by omega
    simp [IntCode.next_instruction, IntCode.next_instruction_run,
      IntCode.run_instruction, IntCode.State.get_next, hle, hraw,
      IntCode.analyze_instruction, hnn, hcode, IntCode.input_calc,
      IntCode.State.get_input, IntCode.ParamModeDispenser.next, hmode,
      IntCode.ParamMode.fromNat, IntCode.State.get_address, hle2, ht,
      htneg, IntCode.State.set_value, htlen]

lemma maybe_string_go_stash (good : List Int) :
    ∀ (fuel : Nat) (c : IntCodeComputer) (acc : List Char) (got : Bool)
      (tail : List Int),
    (∀ x ∈ good, isAsciiVal x = true ∧ x ≠ 10) →
    c.peeked = good ++ tail →
    good.length < fuel →
    IntCodeComputer.maybe_string_go fuel c acc got =
      IntCodeComputer.maybe_string_go (fuel - good.length)
        { c with peeked := tail }
        (acc ++ good.map fun x => Char.ofNat (truncU32 x))
        (got || !good.isEmpty) := by
  induction good with
  | nil =>
    intro fuel c acc got tail _ hp _
    simp only [List.nil_append] at hp
    rw [← hp]
    simp
  | cons g gs ih =>
    intro fuel c acc got tail hgood hp hf
    obtain ⟨f, rfl⟩ : ∃ f, fuel = f + 1 := ⟨fuel - 1, by omega⟩
    obtain ⟨hga, hg10⟩ := hgood g (by simp)
    have hrest : ∀ x ∈ gs, isAsciiVal x = true ∧ x ≠ 10 :=
      fun x hx => hgood x (by simp [hx])
    have hstep :
        IntCodeComputer.maybe_string_go (f + 1) c acc got =
          IntCodeComputer.maybe_string_go f { c with peeked := gs ++ tail }
            (acc ++ [Char.ofNat (truncU32 g)]) true := by
      simp [IntCodeComputer.maybe_string_go, IntCodeComputer.receive_next,
        hp, hg10, hga]
    rw [hstep,
      ih f { c with peeked := gs ++ tail } (acc ++ [Char.ofNat (truncU32 g)])
        true tail hrest (by simp) (by simp at hf; omega)]
    simp [List.append_assoc]

/-- C6 counterexample: the value 4294967393 (= 2^32 + 97) is far outside
0..=127, yet arriving first it is neither pushed back nor an error: the
facade truncates it with `as u32` to 97 and the line reader accepts it as
the character a, returning the line "a". -/
theorem c6_cex :
    ((({ IntCodeComputer.new [99] with
          peeked := [4294967393, 10] }).maybe_string 3).map Prod.fst) =
      some (.ok (some [Char.ofNat 97]))
    ∧ (127 : Int) < 4294967393 := by decide

/-- C6 amended: the line reader accumulates pulled values whose
two's-complement 32-bit truncation is an ASCII code as the corresponding
characters until the exact value 10; a pulled value whose truncation is not
ASCII, arriving before any character has been accumulated, is pushed back
onto the peek stash (behind the remaining stashed values) and the reader
returns None; such a value arriving after the line has begun yields the
`NotAValidChar` error. -/
theorem c6_line_reader (good rest : List Int) (bad : Int)
    (c : IntCodeComputer) (fuel : Nat)
    (hgood : ∀ x ∈ good, isAsciiVal x = true ∧ x ≠ 10)
    (hbad : isAsciiVal bad = false)
    (hf : good.length < fuel) :
    (c.peeked = good ++ 10 :: rest →
      c.maybe_string fuel =
        some (.ok (some (good.map fun x => Char.ofNat (truncU32 x))),
          { c with peeked := rest }))
    ∧ (good = [] → c.peeked = bad :: rest →
      c.maybe_string fuel =
        some (.ok none, { c with peeked := rest ++ [bad] }))
    ∧ (good ≠ [] → c.peeked = good ++ bad :: rest →
      c.maybe_string fuel =
        some (.error (.NotAValidChar bad), { c with peeked := rest })) := by
  have hb10 : bad ≠ 10 := by
    intro h
    rw [h] at hbad
    simp [isAsciiVal, truncU32] at hbad
  obtain ⟨f, hfd⟩ : ∃ f, fuel - good.length = f + 1 :=
    ⟨fuel - good.length - 1, by omega⟩
  refine ⟨?_, ?_, ?_⟩
  · intro hp
    rw [IntCodeComputer.maybe_string,
      maybe_string_go_stash good fuel c [] false (10 :: rest) hgood hp
        (by omega), hfd]
    simp [IntCodeComputer.maybe_string_go, IntCodeComputer.receive_next]
  · intro hg hp
    subst hg
    obtain ⟨f2, rfl⟩ : ∃ f2, fuel = f2 + 1 := ⟨fuel - 1, by omega⟩
    rw [IntCodeComputer.maybe_string]
    simp [IntCodeComputer.maybe_string_go, IntCodeComputer.receive_next,
      hp, hb10, hbad, IntCodeComputer.push_peeked]
  · intro hg hp
    rw [IntCodeComputer.maybe_string,
      maybe_string_go_stash good fuel c [] false (bad :: rest) hgood hp
        (by omega), hfd]
    have hge : good.isEmpty = false := by
      cases good with
      | nil => exact absurd rfl hg
      | cons a as => rfl
    simp [IntCodeComputer.maybe_string_go, IntCodeComputer.receive_next,
      hb10, hbad, hge]

/-- C6 witness: with the stash holding 72 (H), 10 (newline) and 5, the line
reader returns the line H and leaves 5 stashed. -/
theorem c6_witness :
    ({ IntCodeComputer.new [99] with peeked := [72, 10, 5] }).maybe_string 4 =
      some (.ok (some [Char.ofNat 72]),
        { IntCodeComputer.new [99] with peeked := [5] }) :=
  (c6_line_reader [72] [5] (-1)
    { IntCodeComputer.new [99] with peeked := [72, 10, 5] } 4
    (by decide) (by decide) (by decide)).1 (by decide)

lemma take_n_stash (vs : List Int) :
    ∀ (n fuel : Nat) (c : IntCodeComputer),
    c.peeked = vs → c.state.running = .Halted → vs.length < n →
    vs.length < fuel →
    c.take_n fuel n = some (.ok vs, { c with peeked := [] }) := by
  induction vs with
  | nil =>
    intro n fuel c hp hh hn hf
    obtain ⟨m, rfl⟩ : ∃ m, n = m + 1 := ⟨n - 1, by omega⟩
    obtain ⟨f, rfl⟩ : ∃ f, fuel = f + 1 := ⟨fuel - 1, by omega⟩
    have hni : c.state.next_instruction = (.ok .Halted, c.state) := by
      simp [SpecVM.Machine.next_instruction, hh]
    simp [IntCodeComputer.take_n, IntCodeComputer.receive_next, hp,
      IntCodeComputer.run, hni]
  | cons v rest ih =>
    intro n fuel c hp hh hn hf
    obtain ⟨m, rfl⟩ : ∃ m, n = m + 1 := ⟨n - 1, by omega⟩
    obtain ⟨f, rfl⟩ : ∃ f, fuel = f + 1 := ⟨fuel - 1, by omega⟩
    simp only [List.length_cons] at hn hf
    rw [IntCodeComputer.take_n]
    have hrecv : c.receive_next (f + 1) =
        some (.ok (some v), { c with peeked := rest }) := by
      simp [IntCodeComputer.receive_next, hp]
    have hih := ih m f { c with peeked := rest } rfl hh (by omega) (by omega)
    simp [hrecv, hih]

/-- C10: when the pull stream ends (the VM halts) after k outputs with
k < n, `maybe_take_exactly n` returns `ok none` and the k consumed outputs
are gone for good: they are neither returned nor pushed back onto the peek
stash, and the subsequent pull sees only end-of-stream.  The concrete
program `[104, 7, 104, 8, 99]` (two outputs, asked for three) shows the
same end to end. -/
theorem c10_take_exactly (c : IntCodeComputer) (vs : List Int) (n fuel : Nat)
    (hp : c.peeked = vs) (hh : c.state.running = .Halted)
    (hn : vs.length < n) (hf : vs.length < fuel) :
    c.maybe_take_exactly fuel n = some (.ok none, { c with peeked := [] })
    ∧ ({ c with peeked := ([] : List Int) }).receive_next 1 =
      some (.ok none, { c with peeked := [] })
    ∧ ((ComputerFactory.build ⟨[104, 7, 104, 8, 99]⟩).maybe_take_exactly
        20 3).map Prod.fst = some (.ok none) := by
  have hlen : vs.length ≠ n := by omega
  have hni : c.state.next_instruction = (.ok .Halted, c.state) := by
    simp [SpecVM.Machine.next_instruction, hh]
  refine ⟨?_, ?_, by decide⟩
  · rw [IntCodeComputer.maybe_take_exactly,
      take_n_stash vs n fuel c hp hh hn hf]
    simp [hlen]
  · simp [IntCodeComputer.receive_next, IntCodeComputer.run, hni]

/-- C10 witness: a computer with two stashed values and a halted machine,
asked for three values, yields `ok none` with the stash emptied. -/
theorem c10_witness :
    ({ IntCodeComputer.new [99] with
        state := { SpecVM.Machine.new [99] with running := .Halted },
        peeked := [1, 2] }).maybe_take_exactly 5 3 =
      some (.ok none,
        { IntCodeComputer.new [99] with
            state := { SpecVM.Machine.new [99] with running := .Halted },
            peeked := [] }) :=
  (c10_take_exactly
    { IntCodeComputer.new [99] with
        state := { SpecVM.Machine.new [99] with running := .Halted },
        peeked := [1, 2] } [1, 2] 3 5 (by decide) (by decide) (by decide)
    (by decide)).1

/-- C4 witness: the program `[3, 1, 99]` with nothing queued suspends with
the pointer still at cell 0; with 42 queued it stores 42 at cell 1 and moves
the pointer to cell 2. -/
theorem c4_witness :
    IntCode.next_instruction (IntCode.State.new [3, 1, 99]) =
      .ok (.Continue,
        { IntCode.State.new [3, 1, 99] with running := .Waiting }) :=
  (c4_input_suspension (IntCode.State.new [3, 1, 99]) 3 1 42 (by decide)
    (by decide) (by decide) (by decide) (by decide)).1 (by decide)

/-- C7 witness: the fresh computer for `[3, 0, 99]` (INPUT with nothing
queued) suspends and its non-blocking pull returns `WaitingForInput`. -/
theorem c7_witness :
    (IntCodeComputer.new [3, 0, 99]).receive_next 1 =
      some (.error .WaitingForInput,
        { IntCodeComputer.new [3, 0, 99] with
          state := { (IntCodeComputer.new [3, 0, 99]).state with
            running := .Waiting } }) :=
  (c7_waiting_for_input (IntCodeComputer.new [3, 0, 99]).state
    (IntCodeComputer.new [3, 0, 99]) 0).2.2 (by decide) (by decide)
    (by decide) (by decide)
